import Mathlib

/-!
Shallow embedding of the push-notification scheduler of the Helalink2025
repository: the subscription store, the schedule planner (`scheduleFor`), the
dispatch client (`sendPushSafely`), the trigger-fire callbacks, the persistence
helper (`readJSON`), and the HTTP handlers (`/api/subscribe`,
`/api/unsubscribe`) of `server.js`, together with the pieces of the
countdown-server variant (`unnamed/part_002`) that the claims cite
(`loadSubscriptions`, its `/api/unsubscribe`).

JS objects used as maps (`subscriptions`, `runtimeJobs`) are modelled as
association lists keyed by strings, epochs as `Int` milliseconds, the host
process timezone as a UTC offset in minutes, and the two external libraries
as follows: `web-push`'s send is an environment-chosen `TransportResult`
(resolved, or rejected with an error optionally carrying `statusCode`), and
`node-cron`'s `cron.schedule` accepts any expression and yields a job with a
`running` flag that `stop()` clears.
-/

namespace Helalink

/-! ### JS objects as string-keyed association lists -/

/-- `obj[k]` on a JS object used as a map. -/
def alookup {α : Type} (l : List (String × α)) (k : String) : Option α :=
  (l.find? (fun p => p.1 == k)).map (·.2)

/-- JS property assignment `obj[k] = v`: overwrite an existing key, else
append (JS objects keep insertion order for string keys). -/
def aset {α : Type} (l : List (String × α)) (k : String) (v : α) :
    List (String × α) :=
  if l.any (fun p => p.1 == k) then
    l.map (fun p => if p.1 == k then (k, v) else p)
  else l ++ [(k, v)]

/-- JS `delete obj[k]`. -/
def aerase {α : Type} (l : List (String × α)) (k : String) :
    List (String × α) :=
  l.filter (fun p => !(p.1 == k))

theorem alookup_aset_self {α : Type} (l : List (String × α)) (k : String)
    (v : α) : alookup (aset l k v) k = some v := by
  unfold aset
  split
  · rename_i hany
    induction l with
    | nil => simp at hany
    | cons hd tl ih =>
      by_cases h : hd.1 == k
      · simp [alookup, List.find?, h]
      · simp only [List.any_cons, h, Bool.false_or] at hany
        simpa [alookup, List.find?, h] using ih hany
  · rename_i hany
    induction l with
    | nil => simp [alookup, List.find?]
    | cons hd tl ih =>
      simp only [List.any_cons, Bool.or_eq_true, not_or] at hany
      have h1 : (hd.1 == k) = false := by
        cases h : hd.1 == k
        · rfl
        · exact absurd h hany.1
      simpa [alookup, List.find?, h1] using ih (by simp [hany.2])

theorem alookup_aset_ne {α : Type} (l : List (String × α)) (k k' : String)
    (v : α) (hne : ¬ k' = k) :
    alookup (aset l k v) k' = alookup l k' := by
  have hkk : (k == k') = false := by
    cases h : k == k'
    · rfl
    · exact absurd (eq_of_beq h).symm hne
  unfold aset
  split
  · rename_i hclr
    clear hclr
    induction l with
    | nil => rfl
    | cons hd tl ih =>
      by_cases h : hd.1 == k
      · have h2 : (hd.1 == k') = false := by
          cases h3 : hd.1 == k'
          · rfl
          · exact absurd (eq_of_beq h ▸ (eq_of_beq h3).symm) hne
        simp [alookup, List.find?, h, h2, hkk] at ih ⊢
        exact ih
      · by_cases h2 : hd.1 == k'
        · simp [alookup, List.find?, h, h2]
        · simp [alookup, List.find?, h, h2] at ih ⊢
          exact ih
  · rename_i hclr
    clear hclr
    induction l with
    | nil => simp [alookup, List.find?, hkk]
    | cons hd tl ih =>
      by_cases h2 : hd.1 == k'
      · simp [alookup, List.find?, h2]
      · simp [alookup, List.find?, h2] at ih ⊢
        exact ih

theorem alookup_aerase_self {α : Type} (l : List (String × α)) (k : String) :
    alookup (aerase l k) k = none := by
  induction l with
  | nil => rfl
  | cons hd tl ih =>
    by_cases h : hd.1 == k
    · simp only [aerase, List.filter, h] at ih ⊢
      exact ih
    · simp only [aerase, alookup, List.filter, List.find?, h] at ih ⊢
      exact ih

theorem alookup_aerase_ne {α : Type} (l : List (String × α)) (k k' : String)
    (hne : ¬ k' = k) : alookup (aerase l k) k' = alookup l k' := by
  induction l with
  | nil => rfl
  | cons hd tl ih =>
    by_cases h : hd.1 == k
    · have h2 : (hd.1 == k') = false := by
        cases h3 : hd.1 == k'
        · rfl
        · exact absurd (eq_of_beq h ▸ (eq_of_beq h3).symm) hne
      simpa [aerase, alookup, List.filter, List.find?, h, h2] using ih
    · by_cases h2 : hd.1 == k'
      · simp [aerase, alookup, List.filter, List.find?, h, h2]
      · simpa [aerase, alookup, List.filter, List.find?, h, h2] using ih

/-! ### JS string and number primitives -/

/-- Truthiness test of an optional JS string: missing/`null` and `""` are
falsy. -/
def jsFalsyStr : Option String → Bool
  | none => true
  | some s => s == ""

/-- JS `s || d` on an optional string field with a string default. -/
def jsOrDefault (s : Option String) (d : String) : String :=
  match s with
  | none => d
  | some t => if t == "" then d else t

/-- JS `parseInt(s, 10)`: skip leading whitespace, take an optional sign and
the leading run of decimal digits; `NaN` (here `none`) when that run is
empty. -/
def jsParseInt10 (s : String) : Option Int :=
  let cs := s.data.dropWhile
    (fun c => c == ' ' || c == '\t' || c == '\n' || c == '\r')
  let signed : Bool × List Char :=
    match cs with
    | '-' :: rest => (true, rest)
    | '+' :: rest => (false, rest)
    | _ => (false, cs)
  let digits := signed.2.takeWhile (fun c => c.isDigit)
  if digits.isEmpty then none
  else
    let v : Int := digits.foldl (fun acc c => acc * 10 + ((c.toNat : Int) - 48)) 0
    some (if signed.1 then -v else v)

/-- Worker for `jsSplitColon`, accumulating the current piece reversed. -/
def splitColonAux : List Char → List Char → List String
  | [], acc => [String.mk acc.reverse]
  | c :: cs, acc =>
    if c == ':' then String.mk acc.reverse :: splitColonAux cs []
    else splitColonAux cs (c :: acc)

/-- JS `s.split(':')` (never returns an empty list). -/
def jsSplitColon (s : String) : List String := splitColonAux s.data []

/-! ### Civil calendar arithmetic (what `new Date` does internally)

`daysFromCivil`/`civilFromDays` are the standard proleptic-Gregorian
conversions between a calendar date and a count of days since the Unix
epoch. -/

/-- Days since 1970-01-01 of a civil date (month `1..12`). -/
def daysFromCivil (y m d : Int) : Int :=
  let y2 := if m ≤ 2 then y - 1 else y
  let era := (if 0 ≤ y2 then y2 else y2 - 399) / 400
  let yoe := y2 - era * 400
  let doy := (153 * (if 2 < m then m - 3 else m + 9) + 2) / 5 + d - 1
  let doe := yoe * 365 + yoe / 4 - yoe / 100 + doy
  era * 146097 + doe - 719468

/-- Civil date `(year, month, day)` of a count of days since 1970-01-01. -/
def civilFromDays (z0 : Int) : Int × Int × Int :=
  let z := z0 + 719468
  let era := (if 0 ≤ z then z else z - 146096) / 146097
  let doe := z - era * 146097
  let yoe := (doe - doe / 1460 + doe / 36524 - doe / 146096) / 365
  let y := yoe + era * 400
  let doy := doe - (365 * yoe + yoe / 4 - yoe / 100)
  let mp := (5 * doy + 2) / 153
  let d := doy - (153 * mp + 2) / 5 + 1
  let m := if mp < 10 then mp + 3 else mp - 9
  (if m ≤ 2 then y + 1 else y, m, d)

/-- Civil date-time as carried by a zone-less ISO string such as
`"2025-09-13T00:00:00"` (month `1..12`). `new Date(iso)` interprets such a
string in the host process's local timezone. -/
structure CivilDateTime where
  year : Int
  month : Int
  day : Int
  hour : Int
  minute : Int
  second : Int
deriving DecidableEq, Repr

/-- UTC epoch milliseconds of a civil date-time read as UTC. -/
def epochOfCivilUTC (c : CivilDateTime) : Int :=
  daysFromCivil c.year c.month c.day * 86400000
    + c.hour * 3600000 + c.minute * 60000 + c.second * 1000

/-- Civil date-time of a UTC epoch (milliseconds). -/
def civilOfEpochUTC (ms : Int) : CivilDateTime :=
  let days := ms.fdiv 86400000
  let rem := ms - days * 86400000
  let ymd := civilFromDays days
  { year := ymd.1, month := ymd.2.1, day := ymd.2.2,
    hour := rem / 3600000, minute := rem / 60000 % 60,
    second := rem / 1000 % 60 }

/-- Epoch of `new Date(iso)` for a zone-less ISO string on a host whose UTC
offset is `hostOff` minutes (east positive): the civil fields are read in the
host's local zone. -/
def parseLocalISO (c : CivilDateTime) (hostOff : Int) : Int :=
  epochOfCivilUTC c - hostOff * 60000

/-- Host-local civil fields of an epoch: what `getHours`, `getMinutes`,
`getDate`, `getMonth` return (with `getMonth()+1 = month` here, months being
`1..12`). -/
def civilOfEpochLocal (ms hostOff : Int) : CivilDateTime :=
  civilOfEpochUTC (ms + hostOff * 60000)

/-! ### Data model (server.js) -/

/-- A web-push subscription object; its encryption keys are opaque and play
no role in the scheduler, so only the endpoint identity is kept (records are
compared by it). -/
structure PushSubscription where
  endpoint : String
deriving DecidableEq, Repr

/-- One persisted record of the `subscriptions` store:
`id -> { id, subscription, launchIso, dailyTimes, timezone, createdAt }`.
`launchIso` is the parsed civil date-time of the zone-less ISO string
(`none` = absent/null); `dailyTimes = none` models a missing or non-array
field (`Array.isArray` fails); `timezone = none`/`some ""` are falsy for
`item.timezone || 'Africa/Nairobi'`. The opaque `meta` field is omitted. -/
structure SubRecord where
  subscription : Option PushSubscription
  launchIso : Option CivilDateTime
  dailyTimes : Option (List String)
  timezone : Option String
  createdAt : Option Int
deriving DecidableEq, Repr

/-- Outcome of `webpush.sendNotification`: resolved, or rejected with an
error optionally carrying a `statusCode`. -/
inductive TransportResult where
  | delivered
  | transportError (statusCode : Option Int)
deriving DecidableEq, Repr

/-- Return value of `sendPushSafely`: `true`, `{ removed: true }`, or
`false`. -/
inductive SendOutcome where
  | sentTrue
  | removedTrue
  | sentFalse
deriving DecidableEq, Repr

/-- `sendPushSafely` (server.js lines 62-76). The payload does not influence
the classification, so it is not a parameter; the function is total because
the whole body sits in a try/catch. -/
def sendPushSafely : TransportResult → SendOutcome
  | .delivered => .sentTrue
  | .transportError sc =>
      if sc == some 410 || sc == some 404 then .removedTrue else .sentFalse

/-- A recurring `node-cron` job `cron.schedule('{mm} {hh} * * *', cb,
\x7b timezone \x7d)`: its fields plus the `running` flag that `stop()`
clears. -/
structure DailyCronJob where
  minute : Int
  hour : Int
  timezone : String
  running : Bool
deriving DecidableEq, Repr

/-- The one-off launch cron job
`cron.schedule('{mm} {hh} {day} {month} *', cb, \x7b timezone \x7d)`. -/
structure LaunchCronJob where
  minute : Int
  hour : Int
  day : Int
  month : Int
  timezone : String
  running : Bool
deriving DecidableEq, Repr

/-- `runtimeJobs[id]`: the live triggers of one recipient. `launchTimer` is a
pending `setTimeout` armed to fire at the given epoch (`none` once fired or
never armed — `setTimeout` is one-shot). -/
structure ScheduleEntry where
  launchTimer : Option Int
  launchCron : Option LaunchCronJob
  dailyJobs : List DailyCronJob
  lastSentAt : Option Int
deriving DecidableEq, Repr

/-- `runtimeJobs[id] = { dailyJobs: [] }`. -/
def emptyEntry : ScheduleEntry :=
  { launchTimer := none, launchCron := none, dailyJobs := [], lastSentAt := none }

/-- The persisted subscription store, a JS object `id -> record`. -/
abbrev Store := List (String × SubRecord)

/-- The server's mutable state: the in-memory `subscriptions` object, the
content of `subscriptions.json` (written by `persistSubscriptions`), and the
in-memory `runtimeJobs` object. -/
structure ServerState where
  subscriptions : Store
  persisted : Store
  runtimeJobs : List (String × ScheduleEntry)
deriving DecidableEq, Repr

/-! ### Schedule planner (`scheduleFor`, server.js lines 84-164) -/

/-- Parse of one `dailyTimes` entry (line 144-145): split on the colon, map
`parseInt(s, 10)` over the pieces, destructure the first two; the entry is
used only when both are finite numbers. -/
def parseDaily (hhmm : String) : Option (Int × Int) :=
  match (jsSplitColon hhmm).map jsParseInt10 with
  | some hh :: some mm :: _ => some (hh, mm)
  | _ => none

/-- Lines 142-161: one recurring cron job per parseable `dailyTimes` entry,
in order, unparsable entries skipped (`forEach` with an early `return`). -/
def planDailyJobs (dailyTimes : Option (List String)) (tz : String) :
    List DailyCronJob :=
  match dailyTimes with
  | none => []
  | some ts => ts.filterMap (fun hhmm =>
      (parseDaily hhmm).map (fun p =>
        { minute := p.2, hour := p.1, timezone := tz, running := true }))

/-- Lines 100-139: the one-off launch push. `delay = launchDate - now` with
`launchDate = new Date(item.launchIso)` parsed in the host zone: a delay
inside the safe `setTimeout` range becomes a plain timer; a farther positive
delay becomes a one-off cron whose expression is built from the host-local
fields of `launchDate` (`getMinutes`, `getHours`, `getDate`, `getMonth()+1`)
and evaluated by node-cron in the stored `timezone`. -/
def planLaunch (launchIso : Option CivilDateTime) (tz : String)
    (now hostOff : Int) : Option Int × Option LaunchCronJob :=
  match launchIso with
  | none => (none, none)
  | some civ =>
    let launchEpoch := parseLocalISO civ hostOff
    let delay := launchEpoch - now
    if 0 < delay ∧ delay < 2147483647 then (some (now + delay), none)
    else if 0 < delay then
      let L := civilOfEpochLocal launchEpoch hostOff
      (none, some { minute := L.minute, hour := L.hour, day := L.day,
                    month := L.month, timezone := tz, running := true })
    else (none, none)

/-- The fresh `ScheduleEntry` that `scheduleFor` builds for `runtimeJobs[id]`
from the current record: nothing when the record or its subscription is
missing, otherwise the planned launch trigger and daily jobs. -/
def scheduleFor (item? : Option SubRecord) (now hostOff : Int) :
    ScheduleEntry :=
  match item? with
  | none => emptyEntry
  | some item =>
    match item.subscription with
    | none => emptyEntry
    | some _ =>
      let tz := jsOrDefault item.timezone "Africa/Nairobi"
      let lp := planLaunch item.launchIso tz now hostOff
      { launchTimer := lp.1, launchCron := lp.2,
        dailyJobs := planDailyJobs item.dailyTimes tz, lastSentAt := none }

/-- `scheduleFor(id)` as a state transformer (lines 84-92 then the arming):
the previous entry's handles are stopped and the whole entry replaced —
state-wise, an unconditional overwrite of `runtimeJobs[id]`. -/
def runScheduleFor (st : ServerState) (id : String) (now hostOff : Int) :
    ServerState :=
  let e := scheduleFor (alookup st.subscriptions id) now hostOff
  { st with runtimeJobs := aset st.runtimeJobs id e }

/-- `rescheduleAll` (lines 169-173): `Object.keys(subscriptions)` in
insertion order, `scheduleFor` per id inside a per-id try/catch (vacuous
here, `scheduleFor` being total). -/
def rescheduleAll (st : ServerState) (now hostOff : Int) : ServerState :=
  (st.subscriptions.map (·.1)).foldl
    (fun s id => runScheduleFor s id now hostOff) st

/-! ### Trigger-fire callbacks -/

/-- The launch `setTimeout` callback (lines 106-117) firing at `fireTime`
with transport outcome `tr`: the timer is consumed (one-shot),
`lastSentAt` is written, and on `{removed:true}` the record is deleted and
the map persisted. No other trigger of the id is touched. -/
def fireLaunchTimer (st : ServerState) (id : String) (tr : TransportResult)
    (fireTime : Int) : ServerState :=
  match alookup st.runtimeJobs id with
  | none => st
  | some e =>
    match e.launchTimer with
    | none => st
    | some _ =>
      let res := sendPushSafely tr
      let e2 := { e with launchTimer := (none : Option Int),
                         lastSentAt := some fireTime }
      let st2 := { st with runtimeJobs := aset st.runtimeJobs id e2 }
      if res == .removedTrue then
        let subs := aerase st2.subscriptions id
        { st2 with subscriptions := subs, persisted := subs }
      else st2

/-- The one-off launch cron callback (lines 124-135): on `{removed:true}` the
record is deleted and persisted; `job.stop()` runs unconditionally after the
dispatch, so the launch cron never fires twice. `lastSentAt` is not written
in this handler. -/
def fireLaunchCron (st : ServerState) (id : String) (tr : TransportResult) :
    ServerState :=
  match alookup st.runtimeJobs id with
  | none => st
  | some e =>
    match e.launchCron with
    | none => st
    | some j =>
      let res := sendPushSafely tr
      let st2 :=
        if res == .removedTrue then
          let subs := aerase st.subscriptions id
          { st with subscriptions := subs, persisted := subs }
        else st
      let e2 := { e with launchCron := some { j with running := false } }
      { st2 with runtimeJobs := aset st2.runtimeJobs id e2 }

/-- The daily cron callback of `dailyJobs[i]` (lines 147-158): `lastSentAt`
is always written; on `{removed:true}` the record is deleted, the map
persisted, and the firing job alone is stopped — the other daily jobs and
any launch trigger are untouched. -/
def fireDaily (st : ServerState) (id : String) (i : Nat)
    (tr : TransportResult) (fireTime : Int) : ServerState :=
  match alookup st.runtimeJobs id with
  | none => st
  | some e =>
    match e.dailyJobs[i]? with
    | none => st
    | some j =>
      let res := sendPushSafely tr
      if res == .removedTrue then
        let subs := aerase st.subscriptions id
        let e2 := { e with lastSentAt := some fireTime,
                           dailyJobs := e.dailyJobs.set i { j with running := false } }
        { subscriptions := subs, persisted := subs,
          runtimeJobs := aset st.runtimeJobs id e2 }
      else
        let e2 := { e with lastSentAt := some fireTime }
        { st with runtimeJobs := aset st.runtimeJobs id e2 }

/-! ### Persistence (`readJSON`, server.js lines 21-29; `loadSubscriptions`,
part_002 lines 199-209) -/

/-- The backing file as `readJSON` can encounter it: missing, unreadable
(`fs.readFileSync` throws), or raw contents on which `JSON.parse` yields a
value (`some v`) or throws (`none`). -/
inductive FsFile (α : Type) where
  | missing
  | readError
  | raw (parsed : Option α)
deriving DecidableEq, Repr

/-- `fs.existsSync`. -/
def existsSync {α : Type} : FsFile α → Bool
  | .missing => false
  | _ => true

/-- `fs.readFileSync` as a fallible step (throws on a missing or unreadable
file); its result is carried as the pending `JSON.parse` outcome. -/
def readFileSyncE {α : Type} : FsFile α → Except Unit (Option α)
  | .missing => .error ()
  | .readError => .error ()
  | .raw p => .ok p

/-- `JSON.parse` as a fallible step. -/
def jsonParseE {α : Type} : Option α → Except Unit α
  | some v => .ok v
  | none => .error ()

/-- The try-block of `readJSON`: early `return fallback` when the file does
not exist, else read then parse. -/
def readJSONBody {α : Type} (file : FsFile α) (fallback : α) :
    Except Unit α :=
  if existsSync file = false then Except.ok fallback
  else (readFileSyncE file).bind jsonParseE

/-- `readJSON(file, fallback)`: the catch turns any thrown error into the
fallback, so the function is total. -/
def readJSON {α : Type} (file : FsFile α) (fallback : α) : α :=
  match readJSONBody file fallback with
  | .ok v => v
  | .error _ => fallback

/-- `let subscriptions = readJSON(SUB_FILE, {})` (server.js line 48). -/
def loadStore (file : FsFile Store) : Store := readJSON file []

/-- `loadSubscriptions` of the part_002 variant (lines 199-209): same
guarded read/parse inside a try/catch, falling through to `return []` when
the file is missing or anything throws. -/
def loadSubscriptionsV2 (file : FsFile (List PushSubscription)) :
    List PushSubscription :=
  match readJSONBody file [] with
  | .ok v => v
  | .error _ => []

/-! ### HTTP handlers -/

/-- A JSON reply of the server.js handlers (`res.json` replies carry HTTP
status 200 unless `res.status` was called). -/
structure ApiResponse where
  status : Nat
  success : Bool
  id : Option String
deriving DecidableEq, Repr

/-- `/api/subscribe` (server.js lines 249-269). `newId` stands for the fresh
`uuidv4()`, `now` for the request instant. A missing subscription or falsy
endpoint is a 400 reject; otherwise the record is stored with its defaults
(`dailyTimes` when absent/non-array, `timezone` when falsy), persisted, and
scheduled. -/
def subscribeHandler (st : ServerState) (subscription : Option PushSubscription)
    (launchIso : Option CivilDateTime) (dailyTimes : Option (List String))
    (timezone : Option String) (newId : String) (now hostOff : Int) :
    ApiResponse × ServerState :=
  match subscription with
  | none => ({ status := 400, success := false, id := none }, st)
  | some sub =>
    if sub.endpoint == "" then
      ({ status := 400, success := false, id := none }, st)
    else
      let rcd : SubRecord :=
        { subscription := some sub
          launchIso := launchIso
          dailyTimes := some (dailyTimes.getD ["09:00", "13:00", "19:00"])
          timezone := some (jsOrDefault timezone "Africa/Nairobi")
          createdAt := some now }
      let subs := aset st.subscriptions newId rcd
      let st2 : ServerState :=
        { subscriptions := subs, persisted := subs,
          runtimeJobs := st.runtimeJobs }
      let st3 := runScheduleFor st2 newId now hostOff
      ({ status := 200, success := true, id := some newId }, st3)

/-- `/api/unsubscribe` (server.js lines 272-287). `id?` is
`req.body.id || req.query.id` (`some ""` is as falsy as a missing id). A
falsy or unknown id replies `res.json(\x7b success: false \x7d)` — HTTP 200 —
and changes nothing; a known id has its runtime jobs stopped and removed,
its record deleted, and the map persisted. -/
def unsubscribeHandler (st : ServerState) (id? : Option String) :
    ApiResponse × ServerState :=
  if jsFalsyStr id? then
    ({ status := 200, success := false, id := none }, st)
  else
    let id := id?.getD ""
    match alookup st.subscriptions id with
    | none => ({ status := 200, success := false, id := none }, st)
    | some _ =>
      let subs := aerase st.subscriptions id
      ({ status := 200, success := true, id := none },
       { subscriptions := subs, persisted := subs,
         runtimeJobs := aerase st.runtimeJobs id })

/-- A reply of the part_002 handlers. -/
structure ApiResponseV2 where
  status : Nat
  success : Bool
deriving DecidableEq, Repr

/-- `/api/unsubscribe` of the part_002 variant (lines 358-370): the resolved
endpoint is `payload.endpoint || payload.subscription.endpoint` (falsy when
missing or empty); a falsy endpoint is a 400 error, otherwise the list is
filtered by endpoint (saved only when it shrank) and the reply is
`\x7b success: true \x7d`. -/
def unsubscribeV2 (subs : List PushSubscription) (endpoint? : Option String) :
    ApiResponseV2 × List PushSubscription :=
  if jsFalsyStr endpoint? then ({ status := 400, success := false }, subs)
  else
    let ep := endpoint?.getD ""
    ({ status := 200, success := true },
     subs.filter (fun s => !(s.endpoint == ep)))

/-! ### Observations on the runtime state -/

/-- Number of armed (not yet fired, not stopped) launch triggers of an
entry. -/
def armedLaunchCount (e : ScheduleEntry) : Nat :=
  (if e.launchTimer.isSome then 1 else 0) +
  (match e.launchCron with
   | some j => if j.running then 1 else 0
   | none => 0)

/-- Number of running daily cron jobs of an entry. -/
def armedDailyCount (e : ScheduleEntry) : Nat :=
  (e.dailyJobs.filter (·.running)).length

/-- The daily trigger `dailyJobs[i]` of `id` is live: node-cron will keep
invoking its callback at the scheduled times. -/
def canFireDaily (st : ServerState) (id : String) (i : Nat) : Bool :=
  match alookup st.runtimeJobs id with
  | none => false
  | some e =>
    match e.dailyJobs[i]? with
    | none => false
    | some j => j.running

/-- The one-off launch cron of `id` is live. -/
def launchCronRunning (st : ServerState) (id : String) : Bool :=
  match alookup st.runtimeJobs id with
  | none => false
  | some e =>
    match e.launchCron with
    | some j => j.running
    | none => false

/-- The planner yields a launch occurrence for the record: a positive delay
from `now` to the host-local parse of `launchIso`. -/
def launchPlanned (item : SubRecord) (now hostOff : Int) : Bool :=
  match item.launchIso with
  | none => false
  | some civ => decide (0 < parseLocalISO civ hostOff - now)

/-! ### Shared helper lemmas -/

theorem length_filterMap_eq_length_filter {α β : Type} (l : List α)
    (f : α → Option β) :
    (l.filterMap f).length = (l.filter (fun x => (f x).isSome)).length := by
  induction l with
  | nil => rfl
  | cons a l ih =>
    cases h : f a with
    | none => simp [List.filterMap_cons, List.filter_cons, h, ih]
    | some b => simp [List.filterMap_cons, List.filter_cons, h, ih]

theorem filterMap_filter_isSome {α β : Type} (l : List α) (f : α → Option β) :
    (l.filter (fun x => (f x).isSome)).filterMap f = l.filterMap f := by
  induction l with
  | nil => rfl
  | cons a l ih =>
    cases h : f a with
    | none => simp [List.filterMap_cons, List.filter_cons, h, ih]
    | some b => simp [List.filterMap_cons, List.filter_cons, h, ih]

theorem length_filterMap_of_isSome {α β : Type} (l : List α)
    (f : α → Option β) (h : ∀ x ∈ l, (f x).isSome) :
    (l.filterMap f).length = l.length := by
  induction l with
  | nil => rfl
  | cons a l ih =>
    cases hf : f a with
    | none =>
      exact absurd (h a (List.mem_cons_self a l)) (by simp [hf])
    | some b =>
      simp only [List.filterMap_cons, hf, List.length_cons]
      exact congrArg Nat.succ (ih (fun x hx => h x (List.mem_cons_of_mem a hx)))

theorem getq_set_self {α : Type} (l : List α) (i : Nat) (a : α)
    (h : i < l.length) : (l.set i a)[i]? = some a := by
  induction l generalizing i with
  | nil => simp at h
  | cons hd tl ih =>
    cases i with
    | zero => simp [List.set]
    | succ n =>
      simp only [List.set, List.getElem?_cons_succ]
      exact ih n (Nat.lt_of_succ_lt_succ h)

theorem getq_set_ne {α : Type} (l : List α) (i j : Nat) (a : α)
    (h : ¬ j = i) : (l.set i a)[j]? = l[j]? := by
  induction l generalizing i j with
  | nil => simp
  | cons hd tl ih =>
    cases i with
    | zero =>
      cases j with
      | zero => exact absurd rfl h
      | succ m => rfl
    | succ n =>
      cases j with
      | zero => simp [List.set]
      | succ m =>
        simp only [List.set, List.getElem?_cons_succ]
        exact ih n m (fun hc => h (congrArg Nat.succ hc))

theorem planDailyJobs_mem {dt : Option (List String)} {tz : String}
    {j : DailyCronJob} (hj : j ∈ planDailyJobs dt tz) :
    j.running = true ∧ j.timezone = tz := by
  cases dt with
  | none => simp [planDailyJobs] at hj
  | some ts =>
    simp only [planDailyJobs, List.mem_filterMap] at hj
    obtain ⟨x, _, hfx⟩ := hj
    cases hp : parseDaily x with
    | none => rw [hp] at hfx; simp at hfx
    | some p =>
      rw [hp] at hfx
      simp only [Option.map_some', Option.some.injEq] at hfx
      subst hfx
      exact ⟨rfl, rfl⟩

theorem length_planDailyJobs (dt : Option (List String)) (tz : String) :
    (planDailyJobs dt tz).length
      = ((dt.getD []).filter (fun s => (parseDaily s).isSome)).length := by
  cases dt with
  | none => rfl
  | some ts =>
    simp only [planDailyJobs, Option.getD_some]
    rw [length_filterMap_eq_length_filter]
    congr 1
    apply List.filter_congr
    intro x _
    cases parseDaily x <;> simp

theorem armedDailyCount_of_fresh (e : ScheduleEntry)
    (h : e.dailyJobs = planDailyJobs dt tz) :
    armedDailyCount e = (planDailyJobs dt tz).length := by
  unfold armedDailyCount
  rw [h]
  congr 1
  apply List.filter_eq_self.mpr
  intro j hj
  exact (planDailyJobs_mem hj).1

theorem runScheduleFor_subscriptions (st : ServerState) (id : String)
    (now hostOff : Int) :
    (runScheduleFor st id now hostOff).subscriptions = st.subscriptions := rfl

theorem runScheduleFor_persisted (st : ServerState) (id : String)
    (now hostOff : Int) :
    (runScheduleFor st id now hostOff).persisted = st.persisted := rfl

theorem alookup_runScheduleFor_self (st : ServerState) (id : String)
    (now hostOff : Int) :
    alookup (runScheduleFor st id now hostOff).runtimeJobs id
      = some (scheduleFor (alookup st.subscriptions id) now hostOff) :=
  alookup_aset_self _ _ _

theorem alookup_runScheduleFor_ne (st : ServerState) (id id2 : String)
    (now hostOff : Int) (h : ¬ id2 = id) :
    alookup (runScheduleFor st id now hostOff).runtimeJobs id2
      = alookup st.runtimeJobs id2 :=
  alookup_aset_ne _ _ _ _ h

theorem rescheduleAll_subscriptions_aux (ids : List String)
    (st : ServerState) (now hostOff : Int) :
    (ids.foldl (fun s id => runScheduleFor s id now hostOff) st).subscriptions
      = st.subscriptions := by
  induction ids generalizing st with
  | nil => rfl
  | cons a ids ih =>
    rw [List.foldl_cons, ih]
    rfl

theorem rescheduleAll_lookup_notmem_aux (ids : List String)
    (st : ServerState) (id : String) (now hostOff : Int) (h : id ∉ ids) :
    alookup (ids.foldl (fun s i => runScheduleFor s i now hostOff) st).runtimeJobs id
      = alookup st.runtimeJobs id := by
  induction ids generalizing st with
  | nil => rfl
  | cons a ids ih =>
    rw [List.foldl_cons]
    have hne : ¬ id = a := fun hc => h (hc ▸ List.mem_cons_self a ids)
    rw [ih _ (fun hc => h (List.mem_cons_of_mem a hc))]
    exact alookup_runScheduleFor_ne st a id now hostOff hne

theorem rescheduleAll_lookup_mem_aux (ids : List String) (st : ServerState)
    (id : String) (now hostOff : Int) (h : id ∈ ids) :
    alookup (ids.foldl (fun s i => runScheduleFor s i now hostOff) st).runtimeJobs id
      = some (scheduleFor (alookup st.subscriptions id) now hostOff) := by
  induction ids generalizing st with
  | nil => simp at h
  | cons a ids ih =>
    rw [List.foldl_cons]
    by_cases hmem : id ∈ ids
    · rw [ih _ hmem, runScheduleFor_subscriptions]
    · have hid : id = a := by
        rcases List.mem_cons.mp h with h1 | h2
        · exact h1
        · exact absurd h2 hmem
      subst hid
      rw [rescheduleAll_lookup_notmem_aux ids _ id now hostOff hmem]
      exact alookup_runScheduleFor_self st id now hostOff

/-- Every persisted id gets its planned entry from `rescheduleAll`,
independently of what any other record contains. -/
theorem rescheduleAll_lookup (st : ServerState) (id : String)
    (now hostOff : Int) (h : id ∈ st.subscriptions.map (·.1)) :
    alookup (rescheduleAll st now hostOff).runtimeJobs id
      = some (scheduleFor (alookup st.subscriptions id) now hostOff) :=
  rescheduleAll_lookup_mem_aux _ st id now hostOff h

/-! ### Concrete fixtures used by witnesses and counterexamples -/

/-- A record with a far-future launch (2030-09-13), two daily times and the
default timezone stored explicitly. -/
def goneItem : SubRecord :=
  { subscription := some { endpoint := "https://push.example/gone" }
    launchIso := some { year := 2030, month := 9, day := 13,
                        hour := 0, minute := 0, second := 0 }
    dailyTimes := some ["09:00", "13:00"]
    timezone := some "Africa/Nairobi"
    createdAt := some 1757700000000 }

/-- A record whose launch time (2020-09-13) is long past. -/
def pastLaunchItem : SubRecord :=
  { subscription := some { endpoint := "https://push.example/past" }
    launchIso := some { year := 2020, month := 9, day := 13,
                        hour := 0, minute := 0, second := 0 }
    dailyTimes := some ["09:00"]
    timezone := some "Africa/Nairobi"
    createdAt := some 0 }

/-! ### Claim C5 -/

/-- Claim C5: a record whose launch time is already in the past relative to
`now` gets no launch occurrence from planning — neither a launch timer nor a
launch cron is armed, and nothing ever re-arms it (the one-off is missed,
not retried). The launch instant is the host-local parse of `launchIso`,
exactly the `delay` computation of `scheduleFor`. -/
theorem helalink_C5_past_launch_never_armed (item : SubRecord)
    (now hostOff : Int) (c : CivilDateTime)
    (hiso : item.launchIso = some c)
    (hpast : parseLocalISO c hostOff < now) :
    (scheduleFor (some item) now hostOff).launchTimer = none ∧
    (scheduleFor (some item) now hostOff).launchCron = none := by
  have h0 : ¬ (0 < parseLocalISO c hostOff - now) := by omega
  cases hsub : item.subscription with
  | none => simp [scheduleFor, hsub, emptyEntry]
  | some s =>
    have h1 : ¬ (0 < parseLocalISO c hostOff - now ∧
        parseLocalISO c hostOff - now < 2147483647) := fun hc => h0 hc.1
    simp [scheduleFor, hsub, planLaunch, hiso, h1, h0]

/-- Witness for C5 at a concrete record and instant. -/
theorem helalink_C5_witness :
    (scheduleFor (some pastLaunchItem) 1757700000000 0).launchTimer = none ∧
    (scheduleFor (some pastLaunchItem) 1757700000000 0).launchCron = none :=
  helalink_C5_past_launch_never_armed pastLaunchItem 1757700000000 0
    { year := 2020, month := 9, day := 13, hour := 0, minute := 0, second := 0 }
    rfl (by decide)

/-! ### Claim C7 -/

/-- Claim C7: loading the subscription store never raises. Any backing-file
state other than parseable contents — missing file, unreadable file, or
contents `JSON.parse` rejects — makes `readJSON` return the supplied
fallback, so the server's store loads as the empty mapping, and the part_002
loader does the same; the final conjunct classifies `readJSON` exhaustively
(fallback or parsed value), so no error can escape to the caller. -/
theorem helalink_C7_load_fail_soft (file : FsFile Store)
    (fileV2 : FsFile (List PushSubscription))
    (h1 : ∀ v, ¬ file = FsFile.raw (some v))
    (h2 : ∀ v, ¬ fileV2 = FsFile.raw (some v)) :
    loadStore file = [] ∧ loadSubscriptionsV2 fileV2 = [] ∧
    (∀ (α : Type) (g : FsFile α) (fb : α),
      readJSON g fb = fb ∨ ∃ v, g = FsFile.raw (some v) ∧ readJSON g fb = v) := by
  refine ⟨?_, ?_, ?_⟩
  · cases file with
    | missing => rfl
    | readError => rfl
    | raw p =>
      cases p with
      | none => rfl
      | some v => exact absurd rfl (h1 v)
  · cases fileV2 with
    | missing => rfl
    | readError => rfl
    | raw p =>
      cases p with
      | none => rfl
      | some v => exact absurd rfl (h2 v)
  · intro α g fb
    cases g with
    | missing => exact Or.inl rfl
    | readError => exact Or.inl rfl
    | raw p =>
      cases p with
      | none => exact Or.inl rfl
      | some v => exact Or.inr ⟨v, rfl, rfl⟩

/-- Witness for C7: a present-but-corrupt store file and a missing variant
file both load as the empty mapping. -/
theorem helalink_C7_witness :
    loadStore (FsFile.raw none) = [] ∧
    loadSubscriptionsV2 FsFile.missing = [] := by
  have h := helalink_C7_load_fail_soft (FsFile.raw none) FsFile.missing
    (fun v hv => by simp at hv) (fun v hv => by simp at hv)
  exact ⟨h.1, h.2.1⟩

/-! ### Claim C9 -/

/-- Claim C9: `sendPushSafely` is total — the whole body sits in a try/catch,
so it is a function into the three-valued outcome — and the classification
is exhaustive: `true` exactly on transport acceptance, `{removed:true}`
exactly when the error carries statusCode 410 or 404, `false` on every other
transport error. -/
theorem helalink_C9_sendPushSafely_classification (tr : TransportResult) :
    (sendPushSafely tr = SendOutcome.sentTrue ↔
      tr = TransportResult.delivered) ∧
    (sendPushSafely tr = SendOutcome.removedTrue ↔
      (tr = TransportResult.transportError (some 410) ∨
       tr = TransportResult.transportError (some 404))) ∧
    (sendPushSafely tr = SendOutcome.sentFalse ↔
      ∃ sc, tr = TransportResult.transportError sc ∧
        ¬ sc = some 410 ∧ ¬ sc = some 404) := by
  cases tr with
  | delivered => simp [sendPushSafely]
  | transportError sc =>
    by_cases h : sc = some 410 ∨ sc = some 404
    · have hb : (sc == some 410 || sc == some 404) = true := by
        rcases h with h | h <;> simp [h]
      constructor
      · simp [sendPushSafely, hb]
      constructor
      · simp only [sendPushSafely, hb, if_true]
        constructor
        · intro _
          rcases h with h | h <;> [exact Or.inl (by rw [h]); exact Or.inr (by rw [h])]
        · intro _; trivial
      · simp only [sendPushSafely, hb, if_true]
        constructor
        · intro hc; cases hc
        · rintro ⟨sc2, hsc2, h410, h404⟩
          cases hsc2
          rcases h with h | h
          · exact absurd h h410
          · exact absurd h h404
    · push_neg at h
      have hb : (sc == some 410 || sc == some 404) = false := by
        simp [h.1, h.2]
      simp only [sendPushSafely, hb, Bool.false_eq_true, if_false]
      refine ⟨by simp, ?_, ?_⟩
      · constructor
        · intro hc; cases hc
        · rintro (hc | hc) <;> (injection hc with hc2) <;>
            [exact absurd hc2 h.1; exact absurd hc2 h.2]
      · exact ⟨fun _ => ⟨sc, rfl, h.1, h.2⟩, fun _ => by trivial⟩

/-- Witness for C9 at the three outcome classes. -/
theorem helalink_C9_witness :
    sendPushSafely TransportResult.delivered = SendOutcome.sentTrue ∧
    sendPushSafely (TransportResult.transportError (some 410))
      = SendOutcome.removedTrue ∧
    sendPushSafely (TransportResult.transportError (some 404))
      = SendOutcome.removedTrue ∧
    sendPushSafely (TransportResult.transportError (some 500))
      = SendOutcome.sentFalse :=
  ⟨(helalink_C9_sendPushSafely_classification TransportResult.delivered).1.mpr rfl,
   (helalink_C9_sendPushSafely_classification
      (TransportResult.transportError (some 410))).2.1.mpr (Or.inl rfl),
   (helalink_C9_sendPushSafely_classification
      (TransportResult.transportError (some 404))).2.1.mpr (Or.inr rfl),
   (helalink_C9_sendPushSafely_classification
      (TransportResult.transportError (some 500))).2.2.mpr
     ⟨some 500, rfl, by decide, by decide⟩⟩

/-! ### Claim C10 -/

/-- Claim C10: unsubscribing a known id removes exactly that id's record —
afterwards the id is absent, every other id's record is unchanged in the
in-memory map, and the persisted map agrees with the in-memory one on every
other id. (`id` is a stored uuid, hence nonempty; an empty string would be
falsy at the handler's guard.) -/
theorem helalink_C10_unsubscribe_exact (st : ServerState) (id : String)
    (r : SubRecord) (hid : ¬ id = "")
    (hr : alookup st.subscriptions id = some r) :
    (unsubscribeHandler st (some id)).1.success = true ∧
    alookup (unsubscribeHandler st (some id)).2.subscriptions id = none ∧
    (∀ id2, ¬ id2 = id →
      alookup (unsubscribeHandler st (some id)).2.subscriptions id2
        = alookup st.subscriptions id2) ∧
    (∀ id2, ¬ id2 = id →
      alookup (unsubscribeHandler st (some id)).2.persisted id2
        = alookup st.subscriptions id2) := by
  have hf : jsFalsyStr (some id) = false := by
    simp [jsFalsyStr]
    exact hid
  simp only [unsubscribeHandler, hf, Bool.false_eq_true, if_false,
    Option.getD_some, hr]
  exact ⟨by trivial, alookup_aerase_self _ _,
    fun id2 h2 => alookup_aerase_ne _ _ _ h2,
    fun id2 h2 => alookup_aerase_ne _ _ _ h2⟩

/-- Witness for C10: a two-record store; removing `"r1"` leaves `"r2"`
untouched. -/
theorem helalink_C10_witness :
    (unsubscribeHandler
        { subscriptions := [("r1", goneItem), ("r2", pastLaunchItem)],
          persisted := [("r1", goneItem), ("r2", pastLaunchItem)],
          runtimeJobs := [] } (some "r1")).1.success = true ∧
    alookup (unsubscribeHandler
        { subscriptions := [("r1", goneItem), ("r2", pastLaunchItem)],
          persisted := [("r1", goneItem), ("r2", pastLaunchItem)],
          runtimeJobs := [] } (some "r1")).2.subscriptions "r1" = none ∧
    alookup (unsubscribeHandler
        { subscriptions := [("r1", goneItem), ("r2", pastLaunchItem)],
          persisted := [("r1", goneItem), ("r2", pastLaunchItem)],
          runtimeJobs := [] } (some "r1")).2.subscriptions "r2"
      = some pastLaunchItem := by
  have h := helalink_C10_unsubscribe_exact
    { subscriptions := [("r1", goneItem), ("r2", pastLaunchItem)],
      persisted := [("r1", goneItem), ("r2", pastLaunchItem)],
      runtimeJobs := [] } "r1" goneItem (by decide) (by decide)
  refine ⟨h.1, h.2.1, ?_⟩
  rw [h.2.2.1 "r2" (by decide)]
  decide

/-! ### Case lemmas for the planner -/

theorem scheduleFor_eq_of_sub (item : SubRecord) (s : PushSubscription)
    (now hostOff : Int) (hsub : item.subscription = some s) :
    scheduleFor (some item) now hostOff =
      { launchTimer := (planLaunch item.launchIso
          (jsOrDefault item.timezone "Africa/Nairobi") now hostOff).1,
        launchCron := (planLaunch item.launchIso
          (jsOrDefault item.timezone "Africa/Nairobi") now hostOff).2,
        dailyJobs := planDailyJobs item.dailyTimes
          (jsOrDefault item.timezone "Africa/Nairobi"),
        lastSentAt := none } := by
  simp [scheduleFor, hsub]

theorem planLaunch_near (c : CivilDateTime) (tz : String) (now hostOff : Int)
    (h1 : 0 < parseLocalISO c hostOff - now)
    (h2 : parseLocalISO c hostOff - now < 2147483647) :
    planLaunch (some c) tz now hostOff
      = (some (now + (parseLocalISO c hostOff - now)), none) := by
  simp [planLaunch, h1, h2]

theorem planLaunch_far (c : CivilDateTime) (tz : String) (now hostOff : Int)
    (h1 : 2147483647 ≤ parseLocalISO c hostOff - now) :
    planLaunch (some c) tz now hostOff =
      (none, some { minute := (civilOfEpochLocal (parseLocalISO c hostOff) hostOff).minute,
                    hour := (civilOfEpochLocal (parseLocalISO c hostOff) hostOff).hour,
                    day := (civilOfEpochLocal (parseLocalISO c hostOff) hostOff).day,
                    month := (civilOfEpochLocal (parseLocalISO c hostOff) hostOff).month,
                    timezone := tz, running := true }) := by
  have h0 : 0 < parseLocalISO c hostOff - now := by omega
  have hn : ¬ (0 < parseLocalISO c hostOff - now ∧
      parseLocalISO c hostOff - now < 2147483647) := fun hc => by omega
  simp [planLaunch, hn, h0, h1]

theorem planLaunch_past (c : CivilDateTime) (tz : String) (now hostOff : Int)
    (h : ¬ 0 < parseLocalISO c hostOff - now) :
    planLaunch (some c) tz now hostOff = (none, none) := by
  have hn : ¬ (0 < parseLocalISO c hostOff - now ∧
      parseLocalISO c hostOff - now < 2147483647) := fun hc => h hc.1
  simp [planLaunch, hn, h]

theorem filterMap_comp_filter {α β γ : Type} (l : List α) (g : α → Option β)
    (h : β → γ) :
    (l.filter (fun x => (g x).isSome)).filterMap (fun x => (g x).map h)
      = l.filterMap (fun x => (g x).map h) := by
  induction l with
  | nil => rfl
  | cons a l ih =>
    cases hg : g a with
    | none => simp [List.filter_cons, List.filterMap_cons, hg, ih]
    | some b => simp [List.filter_cons, List.filterMap_cons, hg, ih]

theorem planDailyJobs_filter (ts : List String) (tz : String) :
    planDailyJobs (some (ts.filter (fun x => (parseDaily x).isSome))) tz
      = planDailyJobs (some ts) tz := by
  simp only [planDailyJobs]
  exact filterMap_comp_filter ts parseDaily _

/-! ### Claim C2 -/

/-- Claim C2: with the record unchanged, running `scheduleFor(id)` twice in
succession leaves exactly what a single run leaves — the second run
unconditionally tears down and replaces the first run's entry — namely
exactly one armed launch trigger when a launch occurrence is planned (zero
otherwise) and exactly one running daily trigger per `dailyTimes` entry
(the data model's entries being well-formed hh:mm values). -/
theorem helalink_C2_schedule_idempotent (st : ServerState) (id : String)
    (item : SubRecord) (s : PushSubscription) (now hostOff : Int)
    (hit : alookup st.subscriptions id = some item)
    (hsub : item.subscription = some s)
    (hwf : ∀ x ∈ item.dailyTimes.getD [], (parseDaily x).isSome) :
    ∃ e, alookup (runScheduleFor (runScheduleFor st id now hostOff)
          id now hostOff).runtimeJobs id = some e ∧
      alookup (runScheduleFor st id now hostOff).runtimeJobs id = some e ∧
      armedDailyCount e = (item.dailyTimes.getD []).length ∧
      (launchPlanned item now hostOff = true → armedLaunchCount e = 1) ∧
      (launchPlanned item now hostOff = false → armedLaunchCount e = 0) := by
  refine ⟨scheduleFor (some item) now hostOff, ?_, ?_, ?_, ?_, ?_⟩
  · rw [alookup_runScheduleFor_self, runScheduleFor_subscriptions, hit]
  · rw [alookup_runScheduleFor_self, hit]
  · have hdj : (scheduleFor (some item) now hostOff).dailyJobs
        = planDailyJobs item.dailyTimes
            (jsOrDefault item.timezone "Africa/Nairobi") := by
      simp [scheduleFor, hsub]
    rw [armedDailyCount_of_fresh _ hdj, length_planDailyJobs]
    cases hdt : item.dailyTimes with
    | none => simp
    | some ts =>
      rw [hdt] at hwf
      simp only [Option.getD_some] at hwf ⊢
      exact congrArg List.length (List.filter_eq_self.mpr hwf)
  · intro hp
    cases hiso : item.launchIso with
    | none => simp [launchPlanned, hiso] at hp
    | some c =>
      have hd : 0 < parseLocalISO c hostOff - now := by
        simpa [launchPlanned, hiso] using hp
      rw [scheduleFor_eq_of_sub item s now hostOff hsub, hiso]
      by_cases hlt : parseLocalISO c hostOff - now < 2147483647
      · rw [planLaunch_near c _ now hostOff hd hlt]
        simp [armedLaunchCount]
      · have hfar : 2147483647 ≤ parseLocalISO c hostOff - now := by omega
        rw [planLaunch_far c _ now hostOff hfar]
        simp [armedLaunchCount]
  · intro hp
    cases hiso : item.launchIso with
    | none =>
      rw [scheduleFor_eq_of_sub item s now hostOff hsub, hiso]
      simp [armedLaunchCount, planLaunch]
    | some c =>
      have hd : ¬ 0 < parseLocalISO c hostOff - now := by
        simpa [launchPlanned, hiso] using hp
      rw [scheduleFor_eq_of_sub item s now hostOff hsub, hiso,
        planLaunch_past c _ now hostOff hd]
      simp [armedLaunchCount]

/-- A record with three well-formed daily times and a near-future launch. -/
def c2Item : SubRecord :=
  { subscription := some { endpoint := "https://push.example/c2" }
    launchIso := some { year := 2025, month := 9, day := 13,
                        hour := 0, minute := 0, second := 0 }
    dailyTimes := some ["09:00", "13:00", "19:00"]
    timezone := some "Africa/Nairobi"
    createdAt := some 0 }

/-- The server state holding only `c2Item`. -/
def c2State : ServerState :=
  { subscriptions := [("c2", c2Item)], persisted := [("c2", c2Item)],
    runtimeJobs := [] }

/-- Witness for C2 at a concrete state and instant (half a day before the
launch). -/
theorem helalink_C2_witness :
    ∃ e, alookup (runScheduleFor (runScheduleFor c2State "c2" 1757678400000 0)
          "c2" 1757678400000 0).runtimeJobs "c2" = some e ∧
      alookup (runScheduleFor c2State "c2" 1757678400000 0).runtimeJobs "c2"
        = some e ∧
      armedDailyCount e = (c2Item.dailyTimes.getD []).length ∧
      (launchPlanned c2Item 1757678400000 0 = true → armedLaunchCount e = 1) ∧
      (launchPlanned c2Item 1757678400000 0 = false → armedLaunchCount e = 0) :=
  helalink_C2_schedule_idempotent c2State "c2" c2Item
    { endpoint := "https://push.example/c2" } 1757678400000 0
    (by decide) rfl (by decide)

/-! ### Claim C6 -/

/-- Claim C6: a `dailyTimes` entry with an unparsable hour or minute is
skipped by itself — the armed daily triggers are exactly those of the
well-formed entries (first conjunct counts them, second conjunct says the
whole planned entry equals that of the record with malformed entries
removed, so the record is not invalidated) — and `rescheduleAll` still
plans every persisted record regardless of any record's content (third
conjunct). -/
theorem helalink_C6_malformed_entries_skipped (item : SubRecord)
    (s : PushSubscription) (ts : List String) (now hostOff : Int)
    (hsub : item.subscription = some s)
    (hts : item.dailyTimes = some ts) :
    armedDailyCount (scheduleFor (some item) now hostOff)
        = (ts.filter (fun x => (parseDaily x).isSome)).length ∧
    scheduleFor (some { item with dailyTimes := some (ts.filter (fun x => (parseDaily x).isSome)) }) now hostOff
      = scheduleFor (some item) now hostOff ∧
    (∀ (st : ServerState) (id : String), id ∈ st.subscriptions.map (·.1) →
      alookup (rescheduleAll st now hostOff).runtimeJobs id
        = some (scheduleFor (alookup st.subscriptions id) now hostOff)) := by
  refine ⟨?_, ?_, fun st id h => rescheduleAll_lookup st id now hostOff h⟩
  · have hdj : (scheduleFor (some item) now hostOff).dailyJobs
        = planDailyJobs item.dailyTimes
            (jsOrDefault item.timezone "Africa/Nairobi") := by
      simp [scheduleFor, hsub]
    rw [armedDailyCount_of_fresh _ hdj, length_planDailyJobs, hts]
    rfl
  · rw [scheduleFor_eq_of_sub
        { item with dailyTimes := some (ts.filter (fun x => (parseDaily x).isSome)) }
        s now hostOff hsub,
      scheduleFor_eq_of_sub item s now hostOff hsub]
    dsimp only
    rw [hts, planDailyJobs_filter]

/-- A record with one malformed daily time among well-formed ones. -/
def c6Item : SubRecord :=
  { subscription := some { endpoint := "https://push.example/c6" }
    launchIso := none
    dailyTimes := some ["09:00", "banana", "19:00"]
    timezone := some "Africa/Nairobi"
    createdAt := some 0 }

/-- A persisted store holding both a fully well-formed record and the
record with the malformed entry. -/
def c6State : ServerState :=
  { subscriptions := [("good", c2Item), ("mixed", c6Item)],
    persisted := [("good", c2Item), ("mixed", c6Item)],
    runtimeJobs := [] }

/-- Witness for C6: the mixed record arms two daily triggers (the malformed
entry fires nothing), and bootstrapping the two-record store still plans the
well-formed record. -/
theorem helalink_C6_witness :
    armedDailyCount (scheduleFor (some c6Item) 1757678400000 0) = 2 ∧
    alookup (rescheduleAll c6State 1757678400000 0).runtimeJobs "good"
      = some (scheduleFor (alookup c6State.subscriptions "good")
          1757678400000 0) := by
  have h := helalink_C6_malformed_entries_skipped c6Item
    { endpoint := "https://push.example/c6" } ["09:00", "banana", "19:00"]
    1757678400000 0 rfl rfl
  refine ⟨?_, h.2.2 c6State "good" (by decide)⟩
  rw [h.1]
  decide

/-! ### Claim C8 -/

/-- Claim C8: a valid subscribe request whose `dailyTimes` is absent or not
an array stores a record with `dailyTimes = ['09:00','13:00','19:00']`, and
an absent `timezone` is stored as `'Africa/Nairobi'`; the stored record is
not inert — scheduling it arms three running daily triggers. -/
theorem helalink_C8_subscribe_defaults (st : ServerState)
    (sub : PushSubscription) (li : Option CivilDateTime) (newId : String)
    (now hostOff : Int) (hep : ¬ sub.endpoint = "") :
    (subscribeHandler st (some sub) li none none newId now hostOff).1
        = { status := 200, success := true, id := some newId } ∧
    ∃ r, alookup (subscribeHandler st (some sub) li none none newId
            now hostOff).2.subscriptions newId = some r ∧
      alookup (subscribeHandler st (some sub) li none none newId
          now hostOff).2.persisted newId = some r ∧
      r.dailyTimes = some ["09:00", "13:00", "19:00"] ∧
      r.timezone = some "Africa/Nairobi" ∧
      ∃ e, alookup (subscribeHandler st (some sub) li none none newId
            now hostOff).2.runtimeJobs newId = some e ∧
        armedDailyCount e = 3 := by
  have hb : (sub.endpoint == "") = false := by
    cases h : sub.endpoint == "" with
    | false => rfl
    | true => exact absurd (eq_of_beq h) hep
  simp only [subscribeHandler, hb, Bool.false_eq_true, if_false,
    Option.getD_none, jsOrDefault]
  refine ⟨by trivial, ?_⟩
  refine ⟨{ subscription := some sub, launchIso := li, dailyTimes := some ["09:00", "13:00", "19:00"], timezone := some "Africa/Nairobi", createdAt := some now }, ?_, ?_, rfl, rfl, ?_⟩
  · rw [runScheduleFor_subscriptions]
    exact alookup_aset_self _ _ _
  · rw [runScheduleFor_persisted]
    exact alookup_aset_self _ _ _
  · refine ⟨_, alookup_runScheduleFor_self _ newId now hostOff, ?_⟩
    dsimp only
    rw [show alookup (aset st.subscriptions newId { subscription := some sub, launchIso := li, dailyTimes := some ["09:00", "13:00", "19:00"], timezone := some "Africa/Nairobi", createdAt := some now }) newId = some { subscription := some sub, launchIso := li, dailyTimes := some ["09:00", "13:00", "19:00"], timezone := some "Africa/Nairobi", createdAt := some now } from alookup_aset_self _ _ _]
    have hdj : (scheduleFor (some
          { subscription := some sub, launchIso := li,
            dailyTimes := some ["09:00", "13:00", "19:00"],
            timezone := some "Africa/Nairobi", createdAt := some now })
            now hostOff).dailyJobs
          = planDailyJobs (some ["09:00", "13:00", "19:00"])
              "Africa/Nairobi" := by
        simp [scheduleFor, jsOrDefault]
    rw [armedDailyCount_of_fresh _ hdj, length_planDailyJobs]
    decide

/-- Witness for C8 on the empty server state. -/
theorem helalink_C8_witness :
    (subscribeHandler { subscriptions := [], persisted := [], runtimeJobs := [] }
        (some { endpoint := "https://push.example/c8" }) none none none
        "n1" 1757678400000 0).1
      = { status := 200, success := true, id := some "n1" } ∧
    ∃ r, alookup (subscribeHandler
          { subscriptions := [], persisted := [], runtimeJobs := [] }
          (some { endpoint := "https://push.example/c8" }) none none none
          "n1" 1757678400000 0).2.subscriptions "n1" = some r ∧
      alookup (subscribeHandler
          { subscriptions := [], persisted := [], runtimeJobs := [] }
          (some { endpoint := "https://push.example/c8" }) none none none
          "n1" 1757678400000 0).2.persisted "n1" = some r ∧
      r.dailyTimes = some ["09:00", "13:00", "19:00"] ∧
      r.timezone = some "Africa/Nairobi" ∧
      ∃ e, alookup (subscribeHandler
            { subscriptions := [], persisted := [], runtimeJobs := [] }
            (some { endpoint := "https://push.example/c8" }) none none none
            "n1" 1757678400000 0).2.runtimeJobs "n1" = some e ∧
        armedDailyCount e = 3 :=
  helalink_C8_subscribe_defaults
    { subscriptions := [], persisted := [], runtimeJobs := [] }
    { endpoint := "https://push.example/c8" } none "n1" 1757678400000 0
    (by decide)

/-! ### Claim C1 -/

/-- The server state holding only `goneItem` (whose endpoint will report
410). -/
def goneState0 : ServerState :=
  { subscriptions := [("r1", goneItem)], persisted := [("r1", goneItem)],
    runtimeJobs := [] }

/-- `goneState0` after `scheduleFor("r1")` at 2025-09-12T18:00:00Z on a UTC
host: the far-future launch becomes a one-off cron, the two daily times two
running cron jobs. -/
def goneState1 : ServerState := runScheduleFor goneState0 "r1" 1757700000000 0

/-- `goneState1` after the 09:00 daily trigger fires and the transport
reports 410. -/
def goneState2 : ServerState :=
  fireDaily goneState1 "r1" 0 (TransportResult.transportError (some 410))
    1757732400000

/-- Claim C1 counterexample: after a daily-trigger fire whose dispatch
reports the endpoint permanently gone (410), the record is indeed absent
from the in-memory and persisted store, but the teardown the claim asserts
does not happen — the record's other daily trigger is still live and can
fire again, and the still-armed launch cron is still running. -/
theorem helalink_C1_counterexample :
    alookup goneState2.subscriptions "r1" = none ∧
    alookup goneState2.persisted "r1" = none ∧
    canFireDaily goneState2 "r1" 1 = true ∧
    launchCronRunning goneState2 "r1" = true := by decide

/-- Claim C1 amended: on `PermanentlyGone` (statusCode 410 or 404) from any
trigger fire — daily cron (first conjunct), launch timer (second), or
launch cron (third) — the record is deleted from the in-memory map and from
the persisted store, and the firing trigger alone is consumed or stopped;
every other trigger of the id survives untouched: a daily fire leaves the
other daily jobs and any launch trigger exactly as they were, and a launch
fire leaves the whole daily-job list exactly as it was — nothing is torn
down. -/
theorem helalink_C1_amended_gone (sc : Int) (hsc : sc = 410 ∨ sc = 404) :
    (∀ (st : ServerState) (id : String) (i : Nat) (e : ScheduleEntry)
        (j : DailyCronJob) (t : Int),
      alookup st.runtimeJobs id = some e → e.dailyJobs[i]? = some j →
      alookup (fireDaily st id i (TransportResult.transportError (some sc))
          t).subscriptions id = none ∧
      alookup (fireDaily st id i (TransportResult.transportError (some sc))
          t).persisted id = none ∧
      ∃ e2, alookup (fireDaily st id i
            (TransportResult.transportError (some sc)) t).runtimeJobs id
          = some e2 ∧
        e2.dailyJobs[i]? = some { j with running := false } ∧
        (∀ k, ¬ k = i → e2.dailyJobs[k]? = e.dailyJobs[k]?) ∧
        e2.launchTimer = e.launchTimer ∧
        e2.launchCron = e.launchCron) ∧
    (∀ (st : ServerState) (id : String) (e : ScheduleEntry) (t0 t : Int),
      alookup st.runtimeJobs id = some e → e.launchTimer = some t0 →
      alookup (fireLaunchTimer st id (TransportResult.transportError (some sc))
          t).subscriptions id = none ∧
      alookup (fireLaunchTimer st id (TransportResult.transportError (some sc))
          t).persisted id = none ∧
      ∃ e2, alookup (fireLaunchTimer st id
            (TransportResult.transportError (some sc)) t).runtimeJobs id
          = some e2 ∧
        e2.launchTimer = none ∧
        e2.dailyJobs = e.dailyJobs ∧
        e2.launchCron = e.launchCron) ∧
    (∀ (st : ServerState) (id : String) (e : ScheduleEntry)
        (j : LaunchCronJob),
      alookup st.runtimeJobs id = some e → e.launchCron = some j →
      alookup (fireLaunchCron st id
          (TransportResult.transportError (some sc))).subscriptions id = none ∧
      alookup (fireLaunchCron st id
          (TransportResult.transportError (some sc))).persisted id = none ∧
      ∃ e2, alookup (fireLaunchCron st id
            (TransportResult.transportError (some sc))).runtimeJobs id
          = some e2 ∧
        e2.launchCron = some { j with running := false } ∧
        e2.dailyJobs = e.dailyJobs ∧
        e2.launchTimer = e.launchTimer) := by
  have hres : (sendPushSafely (TransportResult.transportError (some sc))
      == SendOutcome.removedTrue) = true := by
    rcases hsc with h | h <;> subst h <;> rfl
  refine ⟨?_, ?_, ?_⟩
  · intro st id i e j t he hj
    have hlen : i < e.dailyJobs.length := by
      by_contra hc
      push_neg at hc
      rw [List.getElem?_eq_none hc] at hj
      cases hj
    simp only [fireDaily, he, hj, hres, if_true]
    refine ⟨alookup_aerase_self _ _, alookup_aerase_self _ _, ?_⟩
    refine ⟨_, alookup_aset_self _ _ _, ?_, ?_, rfl, rfl⟩
    · exact getq_set_self _ _ _ hlen
    · intro k hk
      exact getq_set_ne _ _ _ _ hk
  · intro st id e t0 t he hlt
    simp only [fireLaunchTimer, he, hlt, hres, if_true]
    refine ⟨alookup_aerase_self _ _, alookup_aerase_self _ _, ?_⟩
    exact ⟨_, alookup_aset_self _ _ _, rfl, rfl, rfl⟩
  · intro st id e j he hlc
    simp only [fireLaunchCron, he, hlc, hres, if_true]
    refine ⟨alookup_aerase_self _ _, alookup_aerase_self _ _, ?_⟩
    exact ⟨_, alookup_aset_self _ _ _, rfl, rfl, rfl⟩

/-- A literal runtime entry: an armed launch cron and two running daily
jobs. -/
def c1WitnessEntry : ScheduleEntry :=
  { launchTimer := none
    launchCron := some { minute := 0, hour := 0, day := 13, month := 9,
                         timezone := "Africa/Nairobi", running := true }
    dailyJobs := [{ minute := 0, hour := 9, timezone := "Africa/Nairobi", running := true },
                  { minute := 0, hour := 13, timezone := "Africa/Nairobi", running := true }]
    lastSentAt := none }

/-- A server state whose runtime map holds `c1WitnessEntry` for `"r1"`. -/
def c1WitnessState : ServerState :=
  { subscriptions := [("r1", goneItem)], persisted := [("r1", goneItem)],
    runtimeJobs := [("r1", c1WitnessEntry)] }

/-- A literal runtime entry with a pending launch timer and one running
daily job. -/
def c1TimerEntry : ScheduleEntry :=
  { launchTimer := some 1757721600000
    launchCron := none
    dailyJobs := [{ minute := 0, hour := 9, timezone := "Africa/Nairobi", running := true }]
    lastSentAt := none }

/-- A server state whose runtime map holds `c1TimerEntry` for `"r1"`. -/
def c1TimerState : ServerState :=
  { subscriptions := [("r1", goneItem)], persisted := [("r1", goneItem)],
    runtimeJobs := [("r1", c1TimerEntry)] }

/-- Witness for the amended C1 at concrete states, exercising all three
fire kinds and both status codes: a daily fire with 410 deletes the record
yet leaves the second daily trigger live; a launch-timer fire with 404
deletes the record yet leaves the daily trigger live; a launch-cron fire
with 404 deletes the record yet leaves the daily triggers live. -/
theorem helalink_C1_witness :
    alookup (fireDaily c1WitnessState "r1" 0
        (TransportResult.transportError (some 410))
        1757732400000).subscriptions "r1" = none ∧
    alookup (fireDaily c1WitnessState "r1" 0
        (TransportResult.transportError (some 410))
        1757732400000).persisted "r1" = none ∧
    canFireDaily (fireDaily c1WitnessState "r1" 0
        (TransportResult.transportError (some 410))
        1757732400000) "r1" 1 = true ∧
    alookup (fireLaunchTimer c1TimerState "r1"
        (TransportResult.transportError (some 404))
        1757721600000).persisted "r1" = none ∧
    canFireDaily (fireLaunchTimer c1TimerState "r1"
        (TransportResult.transportError (some 404))
        1757721600000) "r1" 0 = true ∧
    alookup (fireLaunchCron c1WitnessState "r1"
        (TransportResult.transportError (some 404))).subscriptions "r1"
      = none ∧
    canFireDaily (fireLaunchCron c1WitnessState "r1"
        (TransportResult.transportError (some 404))) "r1" 0 = true := by
  have h410 := helalink_C1_amended_gone 410 (Or.inl rfl)
  have h404 := helalink_C1_amended_gone 404 (Or.inr rfl)
  have hd := h410.1 c1WitnessState "r1" 0 c1WitnessEntry
    { minute := 0, hour := 9, timezone := "Africa/Nairobi", running := true }
    1757732400000 (by decide) (by decide)
  have ht := h404.2.1 c1TimerState "r1" c1TimerEntry 1757721600000
    1757721600000 (by decide) (by decide)
  have hc := h404.2.2 c1WitnessState "r1" c1WitnessEntry
    { minute := 0, hour := 0, day := 13, month := 9,
      timezone := "Africa/Nairobi", running := true }
    (by decide) (by decide)
  refine ⟨hd.1, hd.2.1, ?_, ht.2.1, ?_, hc.1, ?_⟩
  · obtain ⟨e2, he2, hset, hfr, hlt2, hlc2⟩ := hd.2.2
    simp only [canFireDaily, he2, hfr 1 (by decide)]
    decide
  · obtain ⟨e2, he2, hlt2, hdj2, hlc2⟩ := ht.2.2
    simp only [canFireDaily, he2, hdj2]
    decide
  · obtain ⟨e2, he2, hlc2, hdj2, hlt2⟩ := hc.2.2
    simp only [canFireDaily, he2, hdj2]
    decide

/-! ### Claim C3 -/

/-- A store that knows only the id `"known"`. -/
def c3State : ServerState :=
  { subscriptions := [("known", goneItem)], persisted := [("known", goneItem)],
    runtimeJobs := [] }

/-- Claim C3 counterexample: an unsubscribe naming an id not in the store is
indeed a no-op on the mapping, but the handler replies
`\x7b success: false \x7d`, not success — refuting "reports success". -/
theorem helalink_C3_counterexample :
    (unsubscribeHandler c3State (some "missing-id")).1.success = false ∧
    (unsubscribeHandler c3State (some "missing-id")).2 = c3State := by decide

/-- Claim C3 amended: a missing or unknown identifier leaves the store
mapping unchanged and raises no error, but the reported outcome differs from
the claim: server.js replies HTTP 200 with `success:false` for a falsy or
unknown id, while the part_002 variant rejects a missing endpoint with HTTP
400 (`success:false`) and replies HTTP 200 `success:true` — list
unchanged — only for an unknown endpoint. -/
theorem helalink_C3_amended (st : ServerState) (id? : Option String)
    (subs : List PushSubscription) (ep : String)
    (hsrv : jsFalsyStr id? = true ∨
      alookup st.subscriptions (id?.getD "") = none)
    (hep : ¬ ep = "")
    (hunk : ∀ s ∈ subs, ¬ s.endpoint = ep) :
    unsubscribeHandler st id?
        = ({ status := 200, success := false, id := none }, st) ∧
    unsubscribeV2 subs none = ({ status := 400, success := false }, subs) ∧
    unsubscribeV2 subs (some ep)
        = ({ status := 200, success := true }, subs) := by
  refine ⟨?_, rfl, ?_⟩
  · rcases hsrv with hf | hn
    · simp [unsubscribeHandler, hf]
    · by_cases hf : jsFalsyStr id? = true
      · simp [unsubscribeHandler, hf]
      · have hf2 : jsFalsyStr id? = false := by
          cases h2 : jsFalsyStr id?
          · rfl
          · exact absurd h2 hf
        simp [unsubscribeHandler, hf2, hn]
  · have hff : jsFalsyStr (some ep) = false := by
      simp [jsFalsyStr]
      exact hep
    simp only [unsubscribeV2, hff, Bool.false_eq_true, if_false,
      Option.getD_some]
    have hfe : subs.filter (fun s => !(s.endpoint == ep)) = subs := by
      apply List.filter_eq_self.mpr
      intro a ha
      simp [hunk a ha]
    rw [hfe]

/-- Witness for the amended C3 at concrete stores and identifiers. -/
theorem helalink_C3_witness :
    unsubscribeHandler c3State (some "missing-id")
        = ({ status := 200, success := false, id := none }, c3State) ∧
    unsubscribeV2 [{ endpoint := "https://push.example/gone" }] none
        = ({ status := 400, success := false },
           [{ endpoint := "https://push.example/gone" }]) ∧
    unsubscribeV2 [{ endpoint := "https://push.example/gone" }]
        (some "https://push.example/other")
        = ({ status := 200, success := true },
           [{ endpoint := "https://push.example/gone" }]) := by
  have h := helalink_C3_amended c3State (some "missing-id")
    [{ endpoint := "https://push.example/gone" }]
    "https://push.example/other" (Or.inr (by decide)) (by decide) (by decide)
  exact ⟨h.1, h.2.1, h.2.2⟩

/-! ### Claim C4 -/

/-- A record whose launch is half a day ahead, with the default timezone
stored explicitly. -/
def nearLaunchItem : SubRecord :=
  { subscription := some { endpoint := "https://push.example/near" }
    launchIso := some { year := 2025, month := 9, day := 13,
                        hour := 0, minute := 0, second := 0 }
    dailyTimes := some []
    timezone := some "Africa/Nairobi"
    createdAt := some 0 }

/-- Claim C4 counterexample: same record (same stored timezone
`Africa/Nairobi`), same instant, but hosts at UTC offset 0 and +180 minutes
arm the near-future launch timer for different epochs — the armed fire time
follows the host process's local timezone, not the record's stored
timezone. -/
theorem helalink_C4_counterexample :
    (scheduleFor (some nearLaunchItem) 1757678400000 0).launchTimer
      = some 1757721600000 ∧
    (scheduleFor (some nearLaunchItem) 1757678400000 180).launchTimer
      = some 1757710800000 ∧
    ¬ (scheduleFor (some nearLaunchItem) 1757678400000 0).launchTimer
      = (scheduleFor (some nearLaunchItem) 1757678400000 180).launchTimer := by
  decide

/-- Claim C4 amended: every armed daily trigger carries the record's stored
timezone; a launch farther ahead than the host's maximum single-timer delay
is represented as a date-specific cron job (no plain timer) that carries the
stored timezone and disarms itself after firing once regardless of the
dispatch outcome; but the launch cron's civil fields come from the
host-local parse of `launchIso`, and a nearer launch is armed as a plain
host-clock delay, so launch fire-times follow the host timezone (see the
counterexample). -/
theorem helalink_C4_amended (item : SubRecord) (now hostOff : Int)
    (c : CivilDateTime)
    (hiso : item.launchIso = some c)
    (hfar : 2147483647 ≤ parseLocalISO c hostOff - now) :
    (∀ j ∈ (scheduleFor (some item) now hostOff).dailyJobs,
      j.timezone = jsOrDefault item.timezone "Africa/Nairobi") ∧
    (item.subscription.isSome = true →
      (scheduleFor (some item) now hostOff).launchTimer = none ∧
      ∃ j, (scheduleFor (some item) now hostOff).launchCron = some j ∧
        j.timezone = jsOrDefault item.timezone "Africa/Nairobi" ∧
        j.running = true) ∧
    (∀ (st2 : ServerState) (id : String) (tr : TransportResult),
      launchCronRunning (fireLaunchCron st2 id tr) id = false) := by
  refine ⟨?_, ?_, ?_⟩
  · intro j hj
    cases hsub : item.subscription with
    | none => simp [scheduleFor, hsub, emptyEntry] at hj
    | some s =>
      have hdj : (scheduleFor (some item) now hostOff).dailyJobs
          = planDailyJobs item.dailyTimes
              (jsOrDefault item.timezone "Africa/Nairobi") := by
        simp [scheduleFor, hsub]
      rw [hdj] at hj
      exact (planDailyJobs_mem hj).2
  · intro hs
    obtain ⟨s, hsub⟩ := Option.isSome_iff_exists.mp hs
    rw [scheduleFor_eq_of_sub item s now hostOff hsub, hiso,
      planLaunch_far c _ now hostOff hfar]
    exact ⟨rfl, ⟨_, rfl, rfl, rfl⟩⟩
  · intro st2 id tr
    unfold fireLaunchCron
    cases hl : alookup st2.runtimeJobs id with
    | none => simp only [launchCronRunning, hl]
    | some e =>
      cases hlc : e.launchCron with
      | none => simp only [launchCronRunning, hl, hlc]
      | some j =>
        simp only [hl, hlc]
        unfold launchCronRunning
        cases hres : (sendPushSafely tr == SendOutcome.removedTrue) with
        | true =>
          simp only [hres, if_true]
          rw [alookup_aset_self]
        | false =>
          simp only [hres, Bool.false_eq_true, if_false]
          rw [alookup_aset_self]

/-- Witness for the amended C4 at a far-future launch and a concrete fire:
the one-off is a cron (no timer), and after it fires once it is stopped. -/
theorem helalink_C4_witness :
    (scheduleFor (some goneItem) 1757700000000 0).launchTimer = none ∧
    launchCronRunning (fireLaunchCron c1WitnessState "r1"
        (TransportResult.transportError (some 404))) "r1" = false := by
  have h := helalink_C4_amended goneItem 1757700000000 0
    { year := 2030, month := 9, day := 13, hour := 0, minute := 0, second := 0 }
    rfl (by decide)
  exact ⟨(h.2.1 rfl).1,
    h.2.2 c1WitnessState "r1" (TransportResult.transportError (some 404))⟩

end Helalink
